import Mathlib

/-!
# Verification of `ContinuousTimeMSM` (msmbuilder/msm/ratematrix.py)

A shallow embedding of the reversible continuous-time Markov state model
estimator: the two-phase sparse optimizer `_optimize`, the field-mutation
sequence of `fit`, the lazily cached information matrix used by the
`uncertainty_*` accessors, the `initial_guess` seed computation, and the
rate-matrix parameterization of the external `_ratematrix.build_ratemat`
kernel (modelled from the specification, the Cython source being outside
the repository snapshot).

External collaborators (transition counting, the L-BFGS-B optimizer, the
likelihood/Hessian kernels, `expm`, `eigvals`, `pinv`, the discrete-time
MLE baseline and the real matrix logarithm) are abstracted as function
parameters collected in an `Externals` record; the embedding fixes only
the orchestration logic that the Python file itself contains.

Machine floats are modelled by real numbers; Python exceptions by an
explicit error value threaded through each operation's result.
-/

namespace Ctmsm

/-- Parameter vectors (numpy 1-d arrays); entries beyond the logical
length are irrelevant. -/
abbrev Vec := ℕ → ℝ

/-- Dense real matrices (numpy 2-d arrays); entries beyond the logical
shape are irrelevant. -/
abbrev Mat := ℕ → ℕ → ℝ

/-- The exceptions the embedded code can raise.  `typeError` stands for
the error a typed external kernel raises when handed Python `None`
instead of an array; `notFittedError` is the explicit precondition error
the specification describes (the embedded code never raises it). -/
inductive PyError where
  | typeError
  | valueError (msg : String)
  | linAlgError (msg : String)
  | notFittedError
  deriving DecidableEq, Repr

/-- The result object returned by `scipy.optimize.minimize`
(`ratematrix.py` reads its fields `x` and `fun`). -/
structure OptResult where
  x : Vec
  fval : ℝ

/-- The mutable state of a `ContinuousTimeMSM` instance: the constructor
parameters and the trailing-underscore fitted fields (lines 87-105).
`lag_time` holds `int(self.lag_time)`, the truncated integer the code
computes on entry to `fit`. -/
structure Model where
  lag_time : ℤ
  prior_counts : ℝ
  use_sparse : Bool
  ftol : ℝ
  inds_ : Option (List ℕ)
  theta_ : Option Vec
  ratemat_ : Option Mat
  transmat_ : Option Mat
  countsmat_ : Option Mat
  n_states_ : Option ℕ
  optimizer_state_ : Option OptResult
  mapping_ : Option (ℕ → ℕ)
  populations_ : Option Vec
  information_ : Option Mat
  loglikelihoods_ : Option (List (ℝ × ℕ))
  timescales_ : Option (List ℝ)

/-- `__init__` (lines 87-105): store the configuration and set every
fitted field to `None`. -/
def initModel (lag_time : ℤ) (prior_counts : ℝ) (use_sparse : Bool) (ftol : ℝ) : Model where
  lag_time := lag_time
  prior_counts := prior_counts
  use_sparse := use_sparse
  ftol := ftol
  inds_ := none
  theta_ := none
  ratemat_ := none
  transmat_ := none
  countsmat_ := none
  n_states_ := none
  optimizer_state_ := none
  mapping_ := none
  populations_ := none
  information_ := none
  loglikelihoods_ := none
  timescales_ := none

/-- The external collaborators the Python file calls, abstracted as
deterministic functions.  Fallible ones return `Except PyError`. -/
structure Externals where
  /-- `_transition_counts(sequences, lag_time)`: counts matrix, state
  count and label mapping. -/
  transition_counts : List (List ℕ) → ℤ → Except PyError (Mat × ℕ × (ℕ → ℕ))
  /-- `_transmat_mle_prinz(countsmat)`: baseline discrete-time MLE
  transition matrix and stationary distribution. -/
  transmat_mle_prinz : Mat → Mat × Vec
  /-- `np.real(scipy.linalg.logm(transmat))`. -/
  relogm : Mat → Mat
  /-- `scipy.optimize.minimize(..., x0, bounds=, args=(inds,), options)`:
  arguments are the start vector, the bound list, the active index set
  handed to the objective, and the `maxiter` option (`none` = default). -/
  minimize : Vec → List (ℝ × Option ℝ) → Option (List ℕ) → Option ℕ → OptResult
  /-- The `(f, start, len(theta))` tuples accumulated by the `objective`
  closure across both phases (their values come from the external
  optimizer's evaluations, so they are opaque to the orchestration). -/
  lltrace : List (ℝ × ℕ)
  /-- `scipy.linalg.expm`. -/
  expm : Mat → Except PyError Mat
  /-- `np.linalg.eigvals(K)` for an `n`-state rate matrix, as the list of
  its `n` eigenvalues (real parts; may fail to converge). -/
  eigvals : Mat → ℕ → Except PyError (List ℝ)
  /-- `_ratematrix.hessian(theta, countsmat, n, t, inds)`. -/
  hessian : Vec → Mat → ℕ → ℝ → Option (List ℕ) → Mat
  /-- `scipy.linalg.pinv`. -/
  pinv : Mat → Mat
  /-- `_ratematrix.sigma_K(information, theta, n, inds)`. -/
  sigma_K : Mat → Vec → ℕ → Option (List ℕ) → Mat
  /-- `_ratematrix.sigma_pi(information, theta, n, inds)`. -/
  sigma_pi : Mat → Vec → ℕ → Option (List ℕ) → Vec
  /-- `_ratematrix.sigma_timescales(information, theta, n, inds)`. -/
  sigma_timescales : Mat → Vec → ℕ → Option (List ℕ) → Vec

/-! ## The parameter layout

The full parameter vector has `nc2 + n` entries, `nc2 = n(n-1)/2`: one
log-exchange parameter per unordered state pair `(i, j)`, `i < j`, in
row-major upper-triangular order (`np.triu_indices_from(..., k=1)`),
followed by the `n` log-population parameters. -/

/-- The strictly-upper-triangular index pairs of an `n × n` matrix in
row-major order, as produced by `np.triu_indices_from(countsmat, k=1)`. -/
def triuPairs (n : ℕ) : List (ℕ × ℕ) :=
  (List.range n).flatMap fun i => (List.range' (i + 1) (n - 1 - i)).map fun j => (i, j)

/-! ## `_optimize` (lines 150-212): the two-phase sparse optimizer -/

/-- `theta_cutoff = np.log(1e-8)` (line 153). -/
noncomputable def theta_cutoff : ℝ := Real.log 1e-8

/-- `bounds0 = [(-20, None)]*nc2 + [(-20, 0)]*n` (line 180). -/
def bounds0 (nc2 n : ℕ) : List (ℝ × Option ℝ) :=
  List.replicate nc2 ((-20 : ℝ), (none : Option ℝ))
    ++ List.replicate n ((-20 : ℝ), some (0 : ℝ))

/-- Lines 190-191: the restricted support
`np.concatenate((np.where(result0.x[:nc2] > theta_cutoff)[0], nc2 + np.arange(n)))`. -/
noncomputable def sparse_inds (nc2 n : ℕ) (x : Vec) : List ℕ :=
  ((List.range nc2).filter fun k => decide (theta_cutoff < x k))
    ++ (List.range n).map fun j => nc2 + j

/-- `len(result.x)` of a phase's solution: `nc2 + n` for the dense
parameterization (`inds = None`), `len(inds)` for the sparse one. -/
def paramCount (nc2 n : ℕ) : Option (List ℕ) → ℕ
  | none => nc2 + n
  | some l => l.length

/-- Lines 182-185: the dense phase-0 minimization over the full
`nc2 + n`-dimensional box, with the iteration cap `max(n//10, 25)` when
sparsity pruning is enabled. -/
noncomputable def phase0 (use_sparse : Bool) (nc2 n : ℕ)
    (minimize : Vec → List (ℝ × Option ℝ) → Option (List ℕ) → Option ℕ → OptResult)
    (theta0 : Vec) : OptResult :=
  minimize theta0 (bounds0 nc2 n) none
    (if use_sparse then some (max (n / 10) 25) else none)

/-- Lines 196-199: the sparse phase-1 refit, warm-started from the
phase-0 values at the retained indices, over the corresponding subset of
bounds, run to the default tolerance. -/
noncomputable def phase1 (use_sparse : Bool) (nc2 n : ℕ)
    (minimize : Vec → List (ℝ × Option ℝ) → Option (List ℕ) → Option ℕ → OptResult)
    (theta0 : Vec) : OptResult :=
  let result0 := phase0 use_sparse nc2 n minimize theta0
  let inds1 := sparse_inds nc2 n result0.x
  minimize (fun i => result0.x (inds1.getD i 0))
    (inds1.map fun i => (bounds0 nc2 n).getD i ((-20 : ℝ), none))
    (some inds1) none

/-- The control flow of `_optimize` (lines 150-212) around the external
optimizer: phase-0 dense minimization, sparsity detection, the optional
phase-1 sparse refit, and the selection of the better objective (lines
193-209).  Returns the selected result, the selected index set, and
whether phase 1 was run at all. -/
noncomputable def optimize (use_sparse : Bool) (nc2 n : ℕ)
    (minimize : Vec → List (ℝ × Option ℝ) → Option (List ℕ) → Option ℕ → OptResult)
    (theta0 : Vec) : OptResult × Option (List ℕ) × Bool :=
  let result0 := phase0 use_sparse nc2 n minimize theta0
  let inds1 := sparse_inds nc2 n result0.x
  if inds1.length = nc2 + n ∨ use_sparse = false then
    (result0, none, false)
  else
    let result1 := phase1 use_sparse nc2 n minimize theta0
    if result1.fval < result0.fval then (result1, some inds1, true)
    else (result0, none, true)

/-! ## The rate-matrix parameterization -/

/-- Modelled from the spec: the value of the active exchange parameter with
full-layout index `k`, as the §4.1 parameterization reads it off the
exponentiated active parameter vector.  With `inds = none` every exchange
parameter is active; under the sparse parameterization a pruned index is
structurally absent (zero rate). -/
noncomputable def sval (exptheta : Vec) (inds : Option (List ℕ)) : ℕ → ℝ := fun k =>
  match inds with
  | none => exptheta k
  | some l => if k ∈ l then exptheta (l.indexOf k) else 0

/-- Modelled from the spec: the symmetric exchange matrix `S` of the §4.1
parameterization, `S i j = S j i = exp (s k)` for the row-major
upper-triangular pair index `k` of `(i, j)` when `k` is active, `0` when
pruned.  The diagonal is unused by the rate matrix and set to `0`. -/
noncomputable def S_of (exptheta : Vec) (n : ℕ) (inds : Option (List ℕ)) : Mat := fun i j =>
  if i = j then 0 else sval exptheta inds ((triuPairs n).indexOf (min i j, max i j))

/-- The unnormalized stationary weights the §4.1 parameterization pairs with
`build_ratemat exptheta n inds`: the population block of `exptheta` (its last
`n` entries; under the sparse parameterization the population indices
`nc2 + i` are always retained in `inds`). -/
noncomputable def pi_of (exptheta : Vec) (n : ℕ) (inds : Option (List ℕ)) : Vec :=
  fun i =>
    match inds with
    | none => exptheta (n * (n - 1) / 2 + i)
    | some l => exptheta (l.indexOf (n * (n - 1) / 2 + i))

/-- Modelled from the spec: `_ratematrix.build_ratemat(exptheta, n, inds, K,
which='K')` lives in the external Cython module `_ratematrix`, whose source is
not part of this repository snapshot; §4.1 of the specification gives its
contract.  `exptheta` is the componentwise exponential of the active parameter
vector.  Off-diagonal: `K i j = S i j * sqrt (pi j / pi i)`; diagonal:
`K i i = -(sum of the off-diagonal entries of row i)`. -/
noncomputable def build_ratemat (exptheta : Vec) (n : ℕ) (inds : Option (List ℕ)) : Mat :=
  fun i j =>
    if i = j then
      -(∑ k ∈ Finset.range n \ {i},
          S_of exptheta n inds i k
            * Real.sqrt (pi_of exptheta n inds k / pi_of exptheta n inds i))
    else S_of exptheta n inds i j * Real.sqrt (pi_of exptheta n inds j / pi_of exptheta n inds i)

/-! ## `initial_guess` (lines 250-261) -/

/-- `initial_guess` (lines 250-261) after the external collaborators have
answered: `KL = np.real(scipy.linalg.logm(transmat))` and `pi` come from the
discrete-time MLE baseline; the code then forms
`S = sqrt(outer(pi, 1/pi)) * KL`, reads off its strict upper triangle, floors
at `1e-10`, takes logarithms clipped from below at `-19`, and appends
`log(pi)`. -/
noncomputable def initial_guess_list (n : ℕ) (KL : Mat) (pi : Vec) : List ℝ :=
  ((triuPairs n).map fun p =>
      max (-19) (Real.log (max (Real.sqrt (pi p.1 / pi p.2) * KL p.1 p.2) 1e-10)))
    ++ (List.range n).map fun i => Real.log (pi i)

/-- The initial guess as §4.2 of the specification words it: the exchange
block is the logarithm of the floored strict-upper-triangular entries of
`S0`, with no further clipping.  Kept side by side with
`initial_guess_list` to compare the code against the spec sentence. -/
noncomputable def initial_guess_spec_list (n : ℕ) (KL : Mat) (pi : Vec) : List ℝ :=
  ((triuPairs n).map fun p =>
      Real.log (max (Real.sqrt (pi p.1 / pi p.2) * KL p.1 p.2) 1e-10))
    ++ (List.range n).map fun i => Real.log (pi i)

/-! ## `fit` (lines 107-134) -/

/-- Descending insertion of one value (helper for `descSort`). -/
noncomputable def insertDesc (a : ℝ) : List ℝ → List ℝ
  | [] => [a]
  | b :: t => if b ≤ a then a :: b :: t else b :: insertDesc a t

/-- `np.sort(v)[::-1]`: the list sorted into descending order. -/
noncomputable def descSort : List ℝ → List ℝ
  | [] => []
  | a :: t => insertDesc a (descSort t)

/-- Line 132: `-1 / np.sort(np.linalg.eigvals(K))[::-1][1:]`. -/
noncomputable def timescales_of (ev : List ℝ) : List ℝ :=
  ((descSort ev).drop 1).map fun l => -1 / l

/-- `fit` (lines 107-134): validate the lag time, count transitions, run
`_optimize` (which stores `loglikelihoods_` as its final statement, line
211), then assign the fitted fields one at a time in source order.  An
exception raised by an external call propagates immediately, leaving the
model exactly as the assignments executed so far left it; the second
component reports the raised error (`none` = the call returned `self`).
The `list_of_1d` input normalization at line 109 is subsumed by the typed
representation of `sequences` here. -/
noncomputable def fit (ext : Externals) (m : Model) (sequences : List (List ℕ)) :
    Model × Option PyError :=
  if m.lag_time < 1 then (m, some (PyError.valueError "lag_time must be >= 1"))
  else
    match ext.transition_counts sequences m.lag_time with
    | .error e => (m, some e)
    | .ok c =>
      let countsmat := c.1
      let n_states := c.2.1
      let mapping := c.2.2
      let nc2 := n_states * (n_states - 1) / 2
      let cm : Mat := fun i j => countsmat i j + m.prior_counts
      let tmpi := ext.transmat_mle_prinz cm
      let theta0 : Vec := fun k => (initial_guess_list n_states (ext.relogm tmpi.1) tmpi.2).getD k 0
      let opt := optimize m.use_sparse nc2 n_states ext.minimize theta0
      let result := opt.1
      let inds := opt.2.1
      let m1 : Model := { m with loglikelihoods_ := some ext.lltrace }
      let exptheta : Vec := fun i => Real.exp (result.x i)
      let K := build_ratemat exptheta n_states inds
      let m2 : Model := { m1 with inds_ := inds, theta_ := some result.x, ratemat_ := some K }
      match ext.expm K with
      | .error e => (m2, some e)
      | .ok T =>
        let npar := paramCount nc2 n_states inds
        let m3 : Model := { m2 with
          transmat_ := some T
          countsmat_ := some countsmat
          n_states_ := some n_states
          optimizer_state_ := some result
          mapping_ := some mapping
          populations_ := some fun i =>
            exptheta (npar - n_states + i)
              / ∑ j ∈ Finset.range n_states, exptheta (npar - n_states + j)
          information_ := none }
        match ext.eigvals K n_states with
        | .error e => (m3, some e)
        | .ok ev => ({ m3 with timescales_ := some (timescales_of ev) }, none)

/-! ## The uncertainty accessors (lines 214-248, 263-272) -/

/-- `_build_information` (lines 263-272): evaluate the external Hessian
kernel at the fitted parameters and store the pseudo-inverse of its
negation.  On a model that was never fitted, `self.theta_`,
`self.countsmat_` and `self.n_states_` are still `None`, and handing them
to the typed kernel raises a `TypeError` (the function contains no
fitted-ness check of its own). -/
def build_information (ext : Externals) (m : Model) : Model × Option PyError :=
  match m.theta_, m.countsmat_, m.n_states_ with
  | some theta, some C, some n =>
    let H := ext.hessian theta C n (m.lag_time : ℝ) m.inds_
    ({ m with information_ := some (ext.pinv fun i j => -(H i j)) }, none)
  | _, _, _ => (m, some PyError.typeError)

/-- `uncertainty_pi` (lines 226-236): build the information matrix first
if it is absent, then call the external `sigma_pi` kernel.  The third
component records whether this call performed an information-matrix
build. -/
def uncertainty_pi (ext : Externals) (m : Model) : Except PyError Vec × Model × Bool :=
  match m.information_ with
  | some I =>
    match m.theta_, m.n_states_ with
    | some theta, some n => (.ok (ext.sigma_pi I theta n m.inds_), m, false)
    | _, _ => (.error PyError.typeError, m, false)
  | none =>
    match build_information ext m with
    | (m', some e) => (.error e, m', false)
    | (m', none) =>
      match m'.information_, m'.theta_, m'.n_states_ with
      | some I, some theta, some n => (.ok (ext.sigma_pi I theta n m'.inds_), m', true)
      | _, _, _ => (.error PyError.typeError, m', true)

/-- `uncertainty_K` (lines 214-224), same caching scheme as
`uncertainty_pi` with the `sigma_K` kernel. -/
def uncertainty_K (ext : Externals) (m : Model) : Except PyError Mat × Model × Bool :=
  match m.information_ with
  | some I =>
    match m.theta_, m.n_states_ with
    | some theta, some n => (.ok (ext.sigma_K I theta n m.inds_), m, false)
    | _, _ => (.error PyError.typeError, m, false)
  | none =>
    match build_information ext m with
    | (m', some e) => (.error e, m', false)
    | (m', none) =>
      match m'.information_, m'.theta_, m'.n_states_ with
      | some I, some theta, some n => (.ok (ext.sigma_K I theta n m'.inds_), m', true)
      | _, _, _ => (.error PyError.typeError, m', true)

/-- `uncertainty_timescales` (lines 238-248), same caching scheme with the
`sigma_timescales` kernel. -/
def uncertainty_timescales (ext : Externals) (m : Model) : Except PyError Vec × Model × Bool :=
  match m.information_ with
  | some I =>
    match m.theta_, m.n_states_ with
    | some theta, some n => (.ok (ext.sigma_timescales I theta n m.inds_), m, false)
    | _, _ => (.error PyError.typeError, m, false)
  | none =>
    match build_information ext m with
    | (m', some e) => (.error e, m', false)
    | (m', none) =>
      match m'.information_, m'.theta_, m'.n_states_ with
      | some I, some theta, some n => (.ok (ext.sigma_timescales I theta n m'.inds_), m', true)
      | _, _, _ => (.error PyError.typeError, m', true)

/-! ## Line 125 over typed matrices

`self.transmat_ = scipy.linalg.expm(self.ratemat_)` applies the matrix
exponential to the fitted rate matrix with no lag-time scaling.  To settle
the scaling claim we restate that one line over `Matrix (Fin n) (Fin n) ℝ`,
with `scipy.linalg.expm` given its mathematical meaning
`NormedSpace.exp ℝ`. -/

/-- Line 125: the stored transition matrix is the matrix exponential of
the rate matrix itself (not of `lag_time • K`). -/
noncomputable def fit_transmat {n : ℕ} (K : Matrix (Fin n) (Fin n) ℝ) :
    Matrix (Fin n) (Fin n) ℝ :=
  NormedSpace.exp ℝ K

/-- A realizable fitted two-state rate matrix: `build_ratemat` at the
all-zero parameter vector (`exptheta = 1`, uniform populations) gives
`K0 = [[-1, 1], [1, -1]]`. -/
noncomputable def K0 : Matrix (Fin 2) (Fin 2) ℝ := Matrix.of ![![-1, 1], ![1, -1]]

/-- Eigenvector matrix of `K0` (columns: the stationary mode and the
decaying mode). -/
noncomputable def Umat : Matrix (Fin 2) (Fin 2) ℝ := Matrix.of ![![1, 1], ![1, -1]]

/-- The inverse of `Umat`. -/
noncomputable def Vmat : Matrix (Fin 2) (Fin 2) ℝ := Matrix.of ![![1/2, 1/2], ![1/2, -1/2]]

/-- `Umat` bundled as a unit of the matrix ring. -/
noncomputable def Uunit : (Matrix (Fin 2) (Fin 2) ℝ)ˣ :=
  ⟨Umat, Vmat,
    by ext i j; fin_cases i <;> fin_cases j <;>
      simp [Umat, Vmat, Matrix.mul_apply, Fin.sum_univ_two, Matrix.one_apply] <;> norm_num,
    by ext i j; fin_cases i <;> fin_cases j <;>
      simp [Umat, Vmat, Matrix.mul_apply, Fin.sum_univ_two, Matrix.one_apply] <;> norm_num⟩

/-! ## Concrete external suites and model states for witnesses -/

/-- A one-state external suite in which every fallible call succeeds and
every kernel returns a constant. -/
def extOk : Externals where
  transition_counts := fun _ _ => .ok (fun _ _ => 0, 1, fun i => i)
  transmat_mle_prinz := fun _ => (fun _ _ => 0, fun _ => 1)
  relogm := fun _ => fun _ _ => 0
  minimize := fun _ _ _ _ => ⟨fun _ => 0, 0⟩
  lltrace := []
  expm := fun _ => .ok fun _ _ => 0
  eigvals := fun _ _ => .ok []
  hessian := fun _ _ _ _ _ => fun _ _ => 0
  pinv := fun M => M
  sigma_K := fun _ _ _ _ => fun _ _ => 0
  sigma_pi := fun _ _ _ _ => fun _ => 0
  sigma_timescales := fun _ _ _ _ => fun _ => 0

/-- The same suite with `scipy.linalg.expm` raising. -/
def extExpmFails : Externals :=
  { extOk with expm := fun _ => .error (PyError.linAlgError "expm did not converge") }

/-- A model in the state left by one successful one-state fit, with the
information matrix not yet requested. -/
def fittedModel : Model :=
  { initModel 1 0 true 0 with
      theta_ := some fun _ => 0
      countsmat_ := some fun _ _ => 0
      n_states_ := some 1 }

/-! ## Helper lemmas -/

theorem triuPairs_length (n : ℕ) : (triuPairs n).length = n * (n - 1) / 2 := by
  induction n with
  | zero => rfl
  | succ m ih =>
    have hsplit : triuPairs (m + 1)
        = ((List.range m).flatMap fun i => (List.range' (i + 1) (m - i)).map fun j => (i, j))
          ++ [] := by
      simp [triuPairs, List.range_succ]
    have hlen : ∀ i, i < m →
        ((List.range' (i + 1) (m - i)).map fun j => ((i, j) : ℕ × ℕ)).length
          = ((List.range' (i + 1) (m - 1 - i)).map fun j => ((i, j) : ℕ × ℕ)).length + 1 := by
      intro i hi
      have : m - i = (m - 1 - i) + 1 := by omega
      simp [this]
    have hstep : (triuPairs (m + 1)).length = (triuPairs m).length + m := by
      rw [hsplit]
      simp only [List.length_append, List.length_nil, Nat.add_zero, triuPairs,
        List.length_flatMap]
      have : ∀ l : List ℕ, (∀ i ∈ l, i < m) →
          (l.map fun i => ((List.range' (i + 1) (m - i)).map fun j => ((i, j) : ℕ × ℕ)).length).sum
            = (l.map fun i =>
                ((List.range' (i + 1) (m - 1 - i)).map fun j => ((i, j) : ℕ × ℕ)).length).sum
              + l.length := by
        intro l
        induction l with
        | nil => intro _; rfl
        | cons a t iht =>
          intro hmem
          have ha : a < m := hmem a (List.mem_cons_self a t)
          have ht : ∀ i ∈ t, i < m := fun i hi => hmem i (List.mem_cons_of_mem a hi)
          simp only [List.map_cons, List.sum_cons, iht ht, hlen a ha, List.length_cons]
          ring
      simp only [Function.comp_def]
      rw [this (List.range m) (fun i hi => List.mem_range.mp hi)]
      simp [List.length_range]
    rw [hstep, ih, Nat.add_sub_cancel]
    have h2 : 2 ∣ m * (m - 1) := (Nat.even_mul_pred_self m).two_dvd
    have h3 : 2 ∣ (m + 1) * m := by
      have h := (Nat.even_mul_succ_self m).two_dvd
      rwa [Nat.mul_comm] at h
    have e1 : m * (m - 1) / 2 * 2 = m * (m - 1) := Nat.div_mul_cancel h2
    have e2 : (m + 1) * m / 2 * 2 = (m + 1) * m := Nat.div_mul_cancel h3
    have key : m * (m - 1) + 2 * m = (m + 1) * m := by
      cases m with
      | zero => rfl
      | succ k =>
        simp only [Nat.succ_sub_one]
        ring
    omega

theorem mem_sparse_inds (nc2 n : ℕ) (x : Vec) (k : ℕ) :
    k ∈ sparse_inds nc2 n x ↔
      (k < nc2 ∧ theta_cutoff < x k) ∨ (nc2 ≤ k ∧ k < nc2 + n) := by
  simp only [sparse_inds, List.mem_append, List.mem_filter, List.mem_range, List.mem_map,
    decide_eq_true_eq]
  constructor
  · rintro (⟨hk, hc⟩ | ⟨j, hj, rfl⟩)
    · exact Or.inl ⟨hk, hc⟩
    · exact Or.inr ⟨Nat.le_add_right _ _, by omega⟩
  · rintro (⟨hk, hc⟩ | ⟨h1, h2⟩)
    · exact Or.inl ⟨hk, hc⟩
    · exact Or.inr ⟨k - nc2, by omega, by omega⟩

theorem sparse_inds_length_le (nc2 n : ℕ) (x : Vec) :
    (sparse_inds nc2 n x).length ≤ nc2 + n := by
  simp only [sparse_inds, List.length_append, List.length_map, List.length_range]
  have := List.length_filter_le (fun k => decide (theta_cutoff < x k)) (List.range nc2)
  simp only [List.length_range] at this
  omega

/-! ## The claims -/

/-- C2: sparsity detection (lines 190-191) selects exactly the exchange
indices `k < nc2` whose phase-0 value exceeds `log(1e-8)` together with all
`n` population indices `nc2, ..., nc2 + n - 1`; and phase 1 is skipped — the
phase-0 result adopted with `inds = None` — if and only if that support has
full size `nc2 + n` or `use_sparse` is disabled (line 193). -/
theorem sparsity_detection_support_and_skip (use_sparse : Bool) (nc2 n : ℕ)
    (minimize : Vec → List (ℝ × Option ℝ) → Option (List ℕ) → Option ℕ → OptResult)
    (theta0 : Vec) :
    (∀ k, k ∈ sparse_inds nc2 n (phase0 use_sparse nc2 n minimize theta0).x ↔
        (k < nc2 ∧ theta_cutoff < (phase0 use_sparse nc2 n minimize theta0).x k)
          ∨ (nc2 ≤ k ∧ k < nc2 + n))
    ∧ ((optimize use_sparse nc2 n minimize theta0).2.2 = false ↔
        (sparse_inds nc2 n (phase0 use_sparse nc2 n minimize theta0).x).length = nc2 + n
          ∨ use_sparse = false)
    ∧ ((optimize use_sparse nc2 n minimize theta0).2.2 = false →
        optimize use_sparse nc2 n minimize theta0
          = (phase0 use_sparse nc2 n minimize theta0, none, false)) := by
  refine ⟨fun k => mem_sparse_inds nc2 n _ k, ?_, ?_⟩ <;>
  · unfold optimize
    by_cases h : (sparse_inds nc2 n (phase0 use_sparse nc2 n minimize theta0).x).length
        = nc2 + n ∨ use_sparse = false
    · simp [h]
    · simp only [if_neg h]
      split <;> simp [h]

/-- C2 witness: with `use_sparse` disabled, `nc2 = 0`, `n = 2` and a constant
external optimizer, phase 1 is skipped and the phase-0 result is adopted with
`inds = None`. -/
theorem sparsity_detection_support_and_skip_witness :
    optimize false 0 2 (fun _ _ _ _ => ⟨fun _ => 0, 0⟩) (fun _ => 0)
      = (phase0 false 0 2 (fun _ _ _ _ => ⟨fun _ => 0, 0⟩) (fun _ => 0), none, false) :=
  (sparsity_detection_support_and_skip false 0 2 (fun _ _ _ _ => ⟨fun _ => 0, 0⟩)
    (fun _ => 0)).2.2 rfl

/-- C1: the selection step (lines 193-209) adopts the phase-1 sparse solution
with its restricted index set exactly when phase 1 ran and its final negated
log-likelihood is strictly lower than phase-0's; otherwise the dense phase-0
solution is kept with `inds = None`.  Consequently the selected objective
never exceeds phase-0's and the selected parameter count never exceeds the
full count `nc2 + n`. -/
theorem selection_adopts_sparse_iff_better (use_sparse : Bool) (nc2 n : ℕ)
    (minimize : Vec → List (ℝ × Option ℝ) → Option (List ℕ) → Option ℕ → OptResult)
    (theta0 : Vec) :
    ((optimize use_sparse nc2 n minimize theta0).2.1 ≠ none ↔
        (optimize use_sparse nc2 n minimize theta0).2.2 = true
          ∧ (phase1 use_sparse nc2 n minimize theta0).fval
              < (phase0 use_sparse nc2 n minimize theta0).fval)
    ∧ ((optimize use_sparse nc2 n minimize theta0).2.2 = true
          ∧ (phase1 use_sparse nc2 n minimize theta0).fval
              < (phase0 use_sparse nc2 n minimize theta0).fval →
        optimize use_sparse nc2 n minimize theta0
          = (phase1 use_sparse nc2 n minimize theta0,
             some (sparse_inds nc2 n (phase0 use_sparse nc2 n minimize theta0).x), true))
    ∧ ((optimize use_sparse nc2 n minimize theta0).2.1 = none →
        (optimize use_sparse nc2 n minimize theta0).1
          = phase0 use_sparse nc2 n minimize theta0)
    ∧ (optimize use_sparse nc2 n minimize theta0).1.fval
        ≤ (phase0 use_sparse nc2 n minimize theta0).fval
    ∧ paramCount nc2 n (optimize use_sparse nc2 n minimize theta0).2.1 ≤ nc2 + n := by
  unfold optimize
  by_cases h : (sparse_inds nc2 n (phase0 use_sparse nc2 n minimize theta0).x).length
      = nc2 + n ∨ use_sparse = false
  · simp [h, paramCount]
  · simp only [if_neg h]
    by_cases h1 : (phase1 use_sparse nc2 n minimize theta0).fval
        < (phase0 use_sparse nc2 n minimize theta0).fval
    · simp only [if_pos h1]
      refine ⟨by simp [h1], by simp, by simp, le_of_lt h1, ?_⟩
      simpa [paramCount] using sparse_inds_length_le nc2 n _
    · simp [h1, paramCount]

/-- C1 witness: with one state and no exchange parameters the support is
full, phase 1 is skipped, and the selected solution is the phase-0 result. -/
theorem selection_adopts_sparse_iff_better_witness :
    (optimize true 0 1 (fun _ _ _ _ => ⟨fun _ => 0, 0⟩) (fun _ => 0)).1
      = phase0 true 0 1 (fun _ _ _ _ => ⟨fun _ => 0, 0⟩) (fun _ => 0) :=
  (selection_adopts_sparse_iff_better true 0 1 (fun _ _ _ _ => ⟨fun _ => 0, 0⟩)
    (fun _ => 0)).2.2.1 rfl

theorem sval_nonneg (theta : Vec) (inds : Option (List ℕ)) (k : ℕ) :
    0 ≤ sval (fun i => Real.exp (theta i)) inds k := by
  cases inds with
  | none => exact (Real.exp_pos _).le
  | some l =>
    by_cases hk : k ∈ l <;> simp [sval, hk, (Real.exp_pos _).le]

theorem S_of_symm (exptheta : Vec) (n : ℕ) (inds : Option (List ℕ)) (i j : ℕ) :
    S_of exptheta n inds i j = S_of exptheta n inds j i := by
  by_cases hij : i = j
  · rw [hij]
  · simp only [S_of, if_neg hij, if_neg (Ne.symm hij), min_comm i j, max_comm i j]

theorem pi_of_exp_pos (theta : Vec) (n : ℕ) (inds : Option (List ℕ)) (i : ℕ) :
    0 < pi_of (fun k => Real.exp (theta k)) n inds i := by
  cases inds <;> exact Real.exp_pos _

/-- Detailed-balance core identity: for positive weights `a` and `b`,
`a * (s * sqrt (b / a)) = b * (s * sqrt (a / b))`. -/
theorem sqrt_balance (s a b : ℝ) (ha : 0 < a) (hb : 0 < b) :
    a * (s * Real.sqrt (b / a)) = b * (s * Real.sqrt (a / b)) := by
  have key : ∀ x y : ℝ, 0 < x → 0 < y → x * Real.sqrt (y / x) = Real.sqrt (x * y) := by
    intro x y hx hy
    have hx2 : x = Real.sqrt (x ^ 2) := by
      rw [Real.sqrt_sq hx.le]
    calc x * Real.sqrt (y / x) = Real.sqrt (x ^ 2) * Real.sqrt (y / x) := by rw [← hx2]
      _ = Real.sqrt (x ^ 2 * (y / x)) := (Real.sqrt_mul (sq_nonneg x) _).symm
      _ = Real.sqrt (x * y) := by
          congr 1
          field_simp
          ring
  calc a * (s * Real.sqrt (b / a)) = s * (a * Real.sqrt (b / a)) := by ring
    _ = s * Real.sqrt (a * b) := by rw [key a b ha hb]
    _ = s * Real.sqrt (b * a) := by rw [mul_comm a b]
    _ = s * (b * Real.sqrt (a / b)) := by rw [key b a hb ha]
    _ = b * (s * Real.sqrt (a / b)) := by ring

/-- C4: for every parameter vector `theta` (its population block makes every
stationary weight `exp (...)` positive, so the §4.1 feasible box is all of
parameter space) and every active index set, the rate matrix built by the
§4.1 parameterization has zero row sums, non-negative off-diagonal entries,
and satisfies detailed balance `pi i * K i j = pi j * K j i` for every pair.
(spec-modelled: the kernel `_ratematrix.build_ratemat` is outside the
repository snapshot.) -/
theorem build_ratemat_generator_properties (n : ℕ) (inds : Option (List ℕ)) (theta : Vec) :
    (∀ i : Fin n, ∑ j ∈ Finset.range n,
        build_ratemat (fun k => Real.exp (theta k)) n inds i j = 0)
    ∧ (∀ i j : ℕ, i ≠ j → 0 ≤ build_ratemat (fun k => Real.exp (theta k)) n inds i j)
    ∧ (∀ i j : ℕ,
        pi_of (fun k => Real.exp (theta k)) n inds i
            * build_ratemat (fun k => Real.exp (theta k)) n inds i j
          = pi_of (fun k => Real.exp (theta k)) n inds j
            * build_ratemat (fun k => Real.exp (theta k)) n inds j i) := by
  refine ⟨?_, ?_, ?_⟩
  · intro i
    have hi : (i : ℕ) ∈ Finset.range n := Finset.mem_range.mpr i.isLt
    rw [Finset.sum_eq_sum_diff_singleton_add hi]
    have hd : ∀ j ∈ Finset.range n \ {(i : ℕ)},
        build_ratemat (fun k => Real.exp (theta k)) n inds i j
          = S_of (fun k => Real.exp (theta k)) n inds i j
              * Real.sqrt (pi_of (fun k => Real.exp (theta k)) n inds j
                  / pi_of (fun k => Real.exp (theta k)) n inds i) := by
      intro j hj
      have hji : ¬ ((i : ℕ) = j) := by
        have := (Finset.mem_sdiff.mp hj).2
        simp only [Finset.mem_singleton] at this
        exact fun h => this h.symm
      simp [build_ratemat, if_neg hji]
    rw [Finset.sum_congr rfl hd]
    simp [build_ratemat]
  · intro i j hij
    simp only [build_ratemat, if_neg hij]
    have hS : 0 ≤ S_of (fun k => Real.exp (theta k)) n inds i j := by
      simp only [S_of, if_neg hij]
      exact sval_nonneg theta inds _
    exact mul_nonneg hS (Real.sqrt_nonneg _)
  · intro i j
    by_cases hij : i = j
    · rw [hij]
    · simp only [build_ratemat, if_neg hij, if_neg (Ne.symm hij)]
      rw [S_of_symm _ _ _ i j]
      exact sqrt_balance _ _ _ (pi_of_exp_pos theta n inds i) (pi_of_exp_pos theta n inds j)

/-- C4 witness: concrete instance of the three generator properties at
`n = 2`, the zero parameter vector and full support. -/
theorem build_ratemat_generator_properties_witness :
    (∑ j ∈ Finset.range 2, build_ratemat (fun _ => Real.exp 0) 2 none 0 j = 0)
    ∧ 0 ≤ build_ratemat (fun _ => Real.exp 0) 2 none 0 1 :=
  ⟨(build_ratemat_generator_properties 2 none (fun _ => 0)).1 (0 : Fin 2),
   (build_ratemat_generator_properties 2 none (fun _ => 0)).2.1 0 1 (by decide)⟩

theorem two_lt_log_ten : (2 : ℝ) < Real.log 10 := by
  rw [Real.lt_log_iff_exp_lt (by norm_num : (0 : ℝ) < 10)]
  have h1 := Real.exp_one_lt_d9
  have h2 : Real.exp 2 = Real.exp 1 * Real.exp 1 := by
    rw [← Real.exp_add]; norm_num
  rw [h2]
  nlinarith [Real.exp_pos 1]

theorem log_em10_lt : Real.log 1e-10 < -20 := by
  have h1 : (1e-10 : ℝ) = ((10 : ℝ) ^ (10 : ℕ))⁻¹ := by norm_num
  rw [h1, Real.log_inv, Real.log_pow]
  have := two_lt_log_ten
  push_cast
  nlinarith

theorem initial_guess_list_exchange (n : ℕ) (KL : Mat) (pi : Vec) (k : ℕ)
    (hk : k < n * (n - 1) / 2) :
    (initial_guess_list n KL pi).getD k 0
      = max (-19) (Real.log (max
          (Real.sqrt (pi ((triuPairs n).getD k (0, 0)).1 / pi ((triuPairs n).getD k (0, 0)).2)
            * KL ((triuPairs n).getD k (0, 0)).1 ((triuPairs n).getD k (0, 0)).2) 1e-10)) := by
  have hk' : k < (triuPairs n).length := by rw [triuPairs_length]; exact hk
  rw [initial_guess_list, List.getD_append _ _ _ _ (by simpa using hk'),
    List.getD_eq_getElem _ _ (by simpa using hk'), List.getElem_map,
    List.getD_eq_getElem _ _ hk']

theorem initial_guess_list_population (n : ℕ) (KL : Mat) (pi : Vec) (i : ℕ) (hi : i < n) :
    (initial_guess_list n KL pi).getD (n * (n - 1) / 2 + i) 0 = Real.log (pi i) := by
  have hlen : ((triuPairs n).map fun p =>
      max (-19) (Real.log (max (Real.sqrt (pi p.1 / pi p.2) * KL p.1 p.2) 1e-10))).length
        = n * (n - 1) / 2 := by
    rw [List.length_map, triuPairs_length]
  rw [initial_guess_list, List.getD_append_right _ _ _ _ (by omega)]
  rw [hlen, Nat.add_sub_cancel_left,
    List.getD_eq_getElem _ _ (by simpa using hi), List.getElem_map, List.getElem_range]

/-- C5 counterexample: at the identity baseline (`KL = Re(logm(transmat)) = 0`,
uniform `pi`) the floored strictly-upper-triangular entry of `S0` is `1e-10`,
its logarithm is below `-23`, and the code stores `-19` instead of that
logarithm: the exchange block of `theta0` is not the logarithm of the floored
entries. -/
theorem initial_guess_not_plain_log :
    (initial_guess_list 2 (fun _ _ => 0) (fun _ => 1 / 2)).getD 0 0
      ≠ (initial_guess_spec_list 2 (fun _ _ => 0) (fun _ => 1 / 2)).getD 0 0 := by
  have htri : triuPairs 2 = [(0, 1)] := rfl
  have hmax : max (Real.sqrt (((1 : ℝ) / 2) / (1 / 2)) * 0) 1e-10 = (1e-10 : ℝ) := by
    rw [mul_zero]
    exact max_eq_right (by norm_num)
  have hlog : Real.log 1e-10 < -19 := lt_trans log_em10_lt (by norm_num)
  have hcode : (initial_guess_list 2 (fun _ _ => 0) (fun _ => 1 / 2)).getD 0 0 = -19 := by
    simp only [initial_guess_list, htri, List.map_cons, List.map_nil, List.cons_append,
      List.getD_cons_zero, hmax]
    exact max_eq_left hlog.le
  have hspec : (initial_guess_spec_list 2 (fun _ _ => 0) (fun _ => 1 / 2)).getD 0 0
      = Real.log 1e-10 := by
    simp only [initial_guess_spec_list, htri, List.map_cons, List.map_nil, List.cons_append,
      List.getD_cons_zero, hmax]
  rw [hcode, hspec]
  exact fun h => absurd (h ▸ hlog) (lt_irrefl _)

/-- C5 (amended): `theta0` is a one-shot deterministic function of the
baseline estimator's output with `nc2 + n` entries; its exchange block is
the logarithm of the floored strictly-upper-triangular entries of `S0`,
additionally clipped from below at `-19`; its population block is
`log(pi)`. -/
theorem initial_guess_characterization (n : ℕ) (KL : Mat) (pi : Vec) :
    (initial_guess_list n KL pi).length = n * (n - 1) / 2 + n
    ∧ (∀ k, k < n * (n - 1) / 2 →
        (initial_guess_list n KL pi).getD k 0
          = max (-19) (Real.log (max
              (Real.sqrt (pi ((triuPairs n).getD k (0, 0)).1
                  / pi ((triuPairs n).getD k (0, 0)).2)
                * KL ((triuPairs n).getD k (0, 0)).1 ((triuPairs n).getD k (0, 0)).2) 1e-10)))
    ∧ (∀ i, i < n →
        (initial_guess_list n KL pi).getD (n * (n - 1) / 2 + i) 0 = Real.log (pi i)) := by
  refine ⟨?_, fun k hk => initial_guess_list_exchange n KL pi k hk,
    fun i hi => initial_guess_list_population n KL pi i hi⟩
  simp [initial_guess_list, triuPairs_length]

/-- C5 witness: the population block of the one-state initial guess is
`log(pi)`. -/
theorem initial_guess_characterization_witness :
    (initial_guess_list 1 (fun _ _ => 0) (fun _ => 1)).getD 0 0 = Real.log 1 := by
  have h := (initial_guess_characterization 1 (fun _ _ => 0) (fun _ => 1)).2.2 0 (by norm_num)
  simpa using h

/-- C10: every exchange-block entry of `theta0` is clipped from below at
`-19` (line 259), a tighter floor than `log(1e-10) < -20`, hence strictly
inside the optimizer's exchange lower bound of `-20` recorded in `bounds0`. -/
theorem initial_guess_exchange_above_bound (n : ℕ) (KL : Mat) (pi : Vec) (k : ℕ)
    (hk : k < n * (n - 1) / 2) :
    -19 ≤ (initial_guess_list n KL pi).getD k 0
    ∧ (-20 : ℝ) < (initial_guess_list n KL pi).getD k 0
    ∧ (bounds0 (n * (n - 1) / 2) n).getD k ((-20 : ℝ), none) = ((-20 : ℝ), none)
    ∧ Real.log 1e-10 < -19 := by
  have h19 : -19 ≤ (initial_guess_list n KL pi).getD k 0 := by
    rw [initial_guess_list_exchange n KL pi k hk]
    exact le_max_left _ _
  refine ⟨h19, lt_of_lt_of_le (by norm_num) h19, ?_, lt_trans log_em10_lt (by norm_num)⟩
  rw [bounds0, List.getD_append _ _ _ _ (by simpa using hk),
    List.getD_eq_getElem _ _ (by simpa using hk), List.getElem_replicate]

/-- C10 witness: concrete two-state instance of the exchange clip. -/
theorem initial_guess_exchange_above_bound_witness :
    -19 ≤ (initial_guess_list 2 (fun _ _ => 0) (fun _ => 1)).getD 0 0 :=
  (initial_guess_exchange_above_bound 2 (fun _ _ => 0) (fun _ => 1) 0 (by norm_num)).1

/-- C6: with a truncated lag time below 1, `fit` raises the input-validation
error `lag_time must be >= 1` before transition counting and before any
optimization — the result is the same for every sequence collection and
every external collaborator suite — and the model is returned unchanged. -/
theorem fit_rejects_lag_below_one (ext : Externals) (m : Model)
    (sequences : List (List ℕ)) (h : m.lag_time < 1) :
    fit ext m sequences = (m, some (PyError.valueError "lag_time must be >= 1")) := by
  unfold fit
  rw [if_pos h]

/-- C6 witness: lag time `0` on a fresh model. -/
theorem fit_rejects_lag_below_one_witness :
    fit extOk (initModel 0 0 true 0) []
      = (initModel 0 0 true 0, some (PyError.valueError "lag_time must be >= 1")) :=
  fit_rejects_lag_below_one extOk (initModel 0 0 true 0) [] (by decide)

/-- C7 (amended): calling `uncertainty_K`, `uncertainty_pi` or
`uncertainty_timescales` on a never-fitted model fails, but not through a
"model not fitted" precondition check: the accessors operate on the absent
(`None`) fitted state, and the failure is the external Hessian kernel's
`TypeError` on those `None` arguments; the model itself is left unchanged. -/
theorem uncertainty_unfitted_fails_with_type_error
    (lag : ℤ) (prior : ℝ) (us : Bool) (ftol : ℝ) (ext : Externals) :
    uncertainty_K ext (initModel lag prior us ftol)
        = (.error PyError.typeError, initModel lag prior us ftol, false)
    ∧ uncertainty_pi ext (initModel lag prior us ftol)
        = (.error PyError.typeError, initModel lag prior us ftol, false)
    ∧ uncertainty_timescales ext (initModel lag prior us ftol)
        = (.error PyError.typeError, initModel lag prior us ftol, false) :=
  ⟨rfl, rfl, rfl⟩

/-- C7 counterexample: on a freshly constructed (never fitted) model the
uncertainty request does not fail with the clear "model not fitted"
precondition error the claim describes — the error that surfaces is the
kernel's `TypeError` on the absent state. -/
theorem uncertainty_unfitted_no_notfitted_error :
    (uncertainty_pi extOk (initModel 1 0 true (1 / 1000000))).1
        = Except.error PyError.typeError
    ∧ (uncertainty_pi extOk (initModel 1 0 true (1 / 1000000))).1
        ≠ Except.error PyError.notFittedError := by
  refine ⟨rfl, ?_⟩
  intro hc
  rw [show (uncertainty_pi extOk (initModel 1 0 true (1 / 1000000))).1
      = Except.error PyError.typeError from rfl] at hc
  exact absurd (Except.error.inj hc) (by decide)

/-- C8: on a fitted model with an empty cache, the first uncertainty request
builds the information matrix — the pseudo-inverse of the negated Hessian at
the fitted `theta_` and `inds_` — and caches it; a second request performs no
further build and leaves the model, cached information matrix included,
entirely unchanged; and every successful `fit` resets the cache to `None`,
so the matrix is recomputed for the new parameters on the next request. -/
theorem information_matrix_cache (ext : Externals) (m : Model) :
    (∀ theta C n, m.theta_ = some theta → m.countsmat_ = some C → m.n_states_ = some n →
      m.information_ = none →
      uncertainty_pi ext m
        = (.ok (ext.sigma_pi (ext.pinv fun i j =>
              -(ext.hessian theta C n (m.lag_time : ℝ) m.inds_ i j)) theta n m.inds_),
           { m with information_ := some (ext.pinv fun i j =>
              -(ext.hessian theta C n (m.lag_time : ℝ) m.inds_ i j)) }, true))
    ∧ (∀ I theta n, m.information_ = some I → m.theta_ = some theta → m.n_states_ = some n →
        uncertainty_pi ext m = (.ok (ext.sigma_pi I theta n m.inds_), m, false))
    ∧ (∀ theta C n, m.theta_ = some theta → m.countsmat_ = some C → m.n_states_ = some n →
        m.information_ = none →
        uncertainty_pi ext (uncertainty_pi ext m).2.1
          = ((uncertainty_pi ext m).1, (uncertainty_pi ext m).2.1, false))
    ∧ (∀ sequences r, fit ext m sequences = (r, none) → r.information_ = none) := by
  have hbuild : ∀ theta C n, m.theta_ = some theta → m.countsmat_ = some C →
      m.n_states_ = some n → m.information_ = none →
      uncertainty_pi ext m
        = (.ok (ext.sigma_pi (ext.pinv fun i j =>
              -(ext.hessian theta C n (m.lag_time : ℝ) m.inds_ i j)) theta n m.inds_),
           { m with information_ := some (ext.pinv fun i j =>
              -(ext.hessian theta C n (m.lag_time : ℝ) m.inds_ i j)) }, true) := by
    intro theta C n ht hc hn hi
    unfold uncertainty_pi build_information
    rw [hi, ht, hc, hn]
  refine ⟨hbuild, ?_, ?_, ?_⟩
  · intro I theta n hi ht hn
    unfold uncertainty_pi
    rw [hi, ht, hn]
  · intro theta C n ht hc hn hi
    rw [hbuild theta C n ht hc hn hi]
    unfold uncertainty_pi
    dsimp only
    rw [ht, hn]
  · intro sequences r h
    unfold fit at h
    dsimp only at h
    split at h
    · simp at h
    · split at h
      · simp at h
      · split at h
        · simp at h
        · split at h
          · simp at h
          · injection h with h1 h2
            rw [← h1]

/-- C8 witness: the one-state fitted model builds on the first request,
leaves everything unchanged on the second, and a concrete successful fit
resets the cache. -/
theorem information_matrix_cache_witness :
    (uncertainty_pi extOk fittedModel).2.2 = true
    ∧ uncertainty_pi extOk (uncertainty_pi extOk fittedModel).2.1
        = ((uncertainty_pi extOk fittedModel).1, (uncertainty_pi extOk fittedModel).2.1, false)
    ∧ (fit extOk (initModel 1 0 true 0) [[0, 0]]).1.information_ = none := by
  refine ⟨?_, ?_, ?_⟩
  · rw [(information_matrix_cache extOk fittedModel).1 (fun _ => 0) (fun _ _ => 0) 1
      rfl rfl rfl rfl]
  · exact (information_matrix_cache extOk fittedModel).2.2.1 (fun _ => 0) (fun _ _ => 0) 1
      rfl rfl rfl rfl
  · exact (information_matrix_cache extOk (initModel 1 0 true 0)).2.2.2 [[0, 0]]
      (fit extOk (initModel 1 0 true 0) [[0, 0]]).1 rfl

/-- C9 counterexample: with the matrix exponential raising after a
successful optimization, `fit` raises yet has already replaced `theta_`
(likewise `inds_`, `ratemat_`, `loglikelihoods_`) while `transmat_` and the
later fields keep their prior values — a raising fit does not leave every
field of the model in its prior state. -/
theorem fit_not_atomic_on_expm_failure :
    (fit extExpmFails (initModel 1 0 true 0) [[0, 0]]).2
        = some (PyError.linAlgError "expm did not converge")
    ∧ (fit extExpmFails (initModel 1 0 true 0) [[0, 0]]).1.theta_
        ≠ (initModel 1 0 true 0).theta_
    ∧ (fit extExpmFails (initModel 1 0 true 0) [[0, 0]]).1.transmat_
        = (initModel 1 0 true 0).transmat_ := by
  refine ⟨rfl, ?_, rfl⟩
  rw [show (fit extExpmFails (initModel 1 0 true 0) [[0, 0]]).1.theta_
      = some (fun _ => (0 : ℝ)) from rfl,
    show (initModel 1 0 true 0).theta_ = none from rfl]
  simp

/-- C9 (amended): `fit` assigns its derived fields sequentially with no
rollback.  When it returns successfully it has replaced them all — the
optimizer outputs, matrices, mapping, populations, log-likelihood trace and
timescales are all present and the information cache is reset — but when an
external step raises midway the model is left partially updated, as the
counterexample exhibits. -/
theorem fit_success_replaces_all_fields (ext : Externals) (m : Model)
    (sequences : List (List ℕ)) (r : Model) (h : fit ext m sequences = (r, none)) :
    r.theta_.isSome ∧ r.ratemat_.isSome ∧ r.transmat_.isSome ∧ r.countsmat_.isSome
    ∧ r.n_states_.isSome ∧ r.optimizer_state_.isSome ∧ r.mapping_.isSome
    ∧ r.populations_.isSome ∧ r.information_ = none ∧ r.loglikelihoods_.isSome
    ∧ r.timescales_.isSome := by
  unfold fit at h
  dsimp only at h
  split at h
  · simp at h
  · split at h
    · simp at h
    · split at h
      · simp at h
      · split at h
        · simp at h
        · injection h with h1 h2
          rw [← h1]
          exact ⟨rfl, rfl, rfl, rfl, rfl, rfl, rfl, rfl, rfl, rfl, rfl⟩

/-- C9 witness: a concrete successful one-state fit has its derived fields
replaced (here: the timescales). -/
theorem fit_success_replaces_all_fields_witness :
    (fit extOk (initModel 1 0 true 0) [[0, 1, 0]]).1.timescales_.isSome :=
  (fit_success_replaces_all_fields extOk (initModel 1 0 true 0) [[0, 1, 0]]
    (fit extOk (initModel 1 0 true 0) [[0, 1, 0]]).1 rfl).2.2.2.2.2.2.2.2.2.2

theorem Uunit_val : (Uunit : Matrix (Fin 2) (Fin 2) ℝ) = Umat := rfl

theorem Uunit_inv_val : ((Uunit⁻¹ : (Matrix (Fin 2) (Fin 2) ℝ)ˣ) : Matrix (Fin 2) (Fin 2) ℝ)
    = Vmat := rfl

theorem K0_diag : K0 = (Uunit : Matrix (Fin 2) (Fin 2) ℝ) * Matrix.diagonal ![0, -2]
    * ((Uunit⁻¹ : (Matrix (Fin 2) (Fin 2) ℝ)ˣ) : Matrix (Fin 2) (Fin 2) ℝ) := by
  rw [Uunit_val, Uunit_inv_val]
  ext i j
  fin_cases i <;> fin_cases j <;>
    simp [K0, Umat, Vmat, Matrix.mul_apply, Fin.sum_univ_two, Matrix.diagonal,
      Matrix.vecHead, Matrix.vecTail] <;> norm_num

theorem K0_two_diag : (2 : ℝ) • K0 = (Uunit : Matrix (Fin 2) (Fin 2) ℝ)
    * Matrix.diagonal ![0, -4]
    * ((Uunit⁻¹ : (Matrix (Fin 2) (Fin 2) ℝ)ˣ) : Matrix (Fin 2) (Fin 2) ℝ) := by
  rw [Uunit_val, Uunit_inv_val]
  ext i j
  fin_cases i <;> fin_cases j <;>
    simp [K0, Umat, Vmat, Matrix.mul_apply, Fin.sum_univ_two, Matrix.diagonal,
      Matrix.vecHead, Matrix.vecTail] <;> norm_num

theorem conj_diag_entry (a b : ℝ) :
    ((Uunit : Matrix (Fin 2) (Fin 2) ℝ) * Matrix.diagonal ![a, b]
        * ((Uunit⁻¹ : (Matrix (Fin 2) (Fin 2) ℝ)ˣ) : Matrix (Fin 2) (Fin 2) ℝ)) 0 1
      = (a - b) / 2 := by
  rw [Uunit_val, Uunit_inv_val]
  simp [Umat, Vmat, Matrix.mul_apply, Fin.sum_univ_two, Matrix.diagonal,
    Matrix.vecHead, Matrix.vecTail]
  ring

theorem exp_K0_entry : NormedSpace.exp ℝ K0 0 1 = (1 - Real.exp (-2)) / 2 := by
  rw [K0_diag, Matrix.exp_units_conj ℝ Uunit, Matrix.exp_diagonal]
  have hd : NormedSpace.exp ℝ (![(0 : ℝ), -2]) = ![1, Real.exp (-2)] := by
    funext i
    rw [Pi.coe_exp]
    fin_cases i <;> simp [← Real.exp_eq_exp_ℝ]
  rw [hd, conj_diag_entry]

theorem exp_two_K0_entry :
    NormedSpace.exp ℝ ((2 : ℝ) • K0) 0 1 = (1 - Real.exp (-4)) / 2 := by
  rw [K0_two_diag, Matrix.exp_units_conj ℝ Uunit, Matrix.exp_diagonal]
  have hd : NormedSpace.exp ℝ (![(0 : ℝ), -4]) = ![1, Real.exp (-4)] := by
    funext i
    rw [Pi.coe_exp]
    fin_cases i <;> simp [← Real.exp_eq_exp_ℝ]
  rw [hd, conj_diag_entry]

theorem K0_realizable (i j : Fin 2) :
    K0 i j = build_ratemat (fun _ => Real.exp 0) 2 none i j := by
  have hs : Finset.range 2 \ {(0 : ℕ)} = {1} := by decide
  have hs1 : Finset.range 2 \ {(1 : ℕ)} = {0} := by decide
  fin_cases i <;> fin_cases j <;>
    simp [K0, build_ratemat, S_of, sval, pi_of, triuPairs, hs, hs1, Real.exp_zero,
      Real.sqrt_one, List.indexOf]

/-- C3 (code bug): line 125 stores `transmat_ = expm(ratemat_)` with no
lag-time scaling, so for a lag time of `2` and the realizable fitted rate
matrix `K0` (reachable from the all-zero parameter vector at a two-state
fit) the stored transition matrix differs from the matrix exponential of
`lag_time • K0` that the claim (and §4.5 / §9 of the specification)
prescribes: entry `(0, 1)` is `(1 - exp (-2)) / 2` instead of
`(1 - exp (-4)) / 2`. -/
theorem transmat_not_scaled_by_lag :
    (∀ i j : Fin 2, K0 i j = build_ratemat (fun _ => Real.exp 0) 2 none i j)
    ∧ fit_transmat K0 ≠ NormedSpace.exp ℝ ((2 : ℝ) • K0) := by
  refine ⟨K0_realizable, ?_⟩
  intro h
  have h01 : fit_transmat K0 0 1 = NormedSpace.exp ℝ ((2 : ℝ) • K0) 0 1 := by rw [h]
  rw [show fit_transmat K0 = NormedSpace.exp ℝ K0 from rfl] at h01
  rw [exp_K0_entry, exp_two_K0_entry] at h01
  have hexp : Real.exp (-2) = Real.exp (-4) := by linarith
  rw [Real.exp_eq_exp] at hexp
  norm_num at hexp

end Ctmsm
